import Mathlib

/-
Verification of the `godot-macros` derive expansion (`derive_godot_class.rs`,
`lib.rs`) against its natural-language specification.

The embedding works on the parsed shape of the input: the external `venial`
crate's declaration types (`Struct`, `StructFields`, `NamedField`,
`Attribute`) become Lean structures, and the attribute value of each tag is
carried in already-parsed key-value form (the repository's `util` module,
which holds `KvMap`, `KvValue`, `parse_kv_group`, `ensure_kv_empty`,
`path_is_single` and `bail`, is not among the sources; those pieces are
modelled from the spec, see the doc comments below).  Emitted token streams
are modelled structurally: each generated `impl` block becomes a record of
the data that the real macro splices into its `quote!` template.  A possible
panic (the `.unwrap()` calls on `proc_macro2::Literal::from_str` during
property emission) is modelled by `Option`: `Option.none` is a panic,
`some` a finished expansion.  Error spans are dropped; a `venial::Error` is
its message string.
-/

namespace GodotMacros

/-- Modelled from the spec: `util::KvValue` (the `util` module is not among
the sources).  The recognized key-value grammar is
`tag(key, key=ident, key="literal")`: a key alone carries no value, a key
can carry a bare identifier, or a literal kept as its token text. -/
inductive KvValue where
  | none
  | ident (i : String)
  | lit (l : String)
deriving DecidableEq, Repr

/-- Modelled from the spec: `util::KvMap`, the key-value map of one tag.
Entries are kept in an association list; per the spec's Scenario C a
"single key-value map naturally keeps only the last value" for a repeated
key, so lookups take the last binding of a key and removal drops them
all. -/
abbrev KvMap := List (String × KvValue)

/-- The value of the last binding of key `k`, if any. -/
def KvMap.lookupLast : KvMap → String → Option KvValue
  | [], _ => Option.none
  | (k', v) :: rest, k =>
    match KvMap.lookupLast rest k with
    | Option.none => if k' = k then some v else Option.none
    | some v' => some v'

/-- All bindings of key `k` dropped. -/
def KvMap.eraseKey (m : KvMap) (k : String) : KvMap :=
  m.filter (fun p => !(p.1 = k : Bool))

/-- Modelled from the spec: `KvMap::remove` hands back the key's value (if
present) and the map without that key. -/
def KvMap.remove (m : KvMap) (k : String) : Option KvValue × KvMap :=
  (m.lookupLast k, m.eraseKey k)

/-- Modelled from the spec: `util::ensure_kv_empty` — "a key-value map must
be empty after matching"; a leftover key is a fatal error naming the
unexpected key. -/
def ensure_kv_empty (m : KvMap) : Except String Unit :=
  match m with
  | [] => Except.ok ()
  | (k, _) :: _ => Except.error ("Unexpected key: " ++ k)

/-- A metadata tag attached to a declaration or a field (`venial::Attribute`,
an external input type).  `path` is the attribute path's segments; `kv` is
the tag's key-value group, already in parsed form (the repository parses it
with `util::parse_kv_group`, which is not among the sources and is modelled
as the stored map). -/
structure Attribute where
  path : List String
  kv : KvMap
deriving DecidableEq, Repr

/-- `venial::Attribute::get_single_path_segment`: the path's one segment,
when it has exactly one. -/
def Attribute.getSinglePathSegment (a : Attribute) : Option String :=
  match a.path with
  | [p] => some p
  | _ => Option.none

/-- Modelled from the spec: `util::path_is_single` — whether the attribute
path is exactly the one given segment. -/
def path_is_single (path : List String) (seg : String) : Bool :=
  path = [seg]

/-- A named struct field with its attached attributes (`venial::NamedField`). -/
structure NamedField where
  name : String
  ty : String
  attributes : List Attribute
deriving DecidableEq, Repr

/-- The field list shape of a struct declaration (`venial::StructFields`). -/
inductive StructFields where
  | unit
  | tuple (n : Nat)
  | named (fields : List NamedField)
deriving DecidableEq, Repr

/-- A struct declaration (`venial::Struct`). -/
structure Struct where
  name : String
  attributes : List Attribute
  fields : StructFields
deriving DecidableEq, Repr

/-- A parsed declaration (`venial::Declaration`): the macro only accepts
structs, every other declaration shape is collapsed into `other`. -/
inductive Declaration where
  | struct (s : Struct)
  | other
deriving DecidableEq, Repr

/-- The input of one macro invocation, after `venial::parse_declaration`
(an external parser): either its parse error or the parsed declaration. -/
inductive MacroInput where
  | parseError (e : String)
  | parsed (d : Declaration)
deriving DecidableEq, Repr

/-- `ParseResult<T> = Result<T, venial::Error>` (`lib.rs`); the error is its
message, spans are dropped. -/
abbrev ParseResult (α : Type) := Except String α

/-- `PropertyInfoAttribute` (`derive_godot_class.rs`): one parsed
`#[property(...)]` descriptor. -/
structure PropertyInfoAttribute where
  name : String
  getter : String
  setter : String
  variant_type : String
deriving DecidableEq, Repr

/-- `ClassAttributes` (`derive_godot_class.rs`): the parsed configuration of
one annotated struct. -/
structure ClassAttributes where
  base_ty : String
  has_generated_init : Bool
  properties : List PropertyInfoAttribute
deriving DecidableEq, Repr

/-- `ExportedField` (`derive_godot_class.rs`). -/
structure ExportedField where
  name : String
  ty : String
deriving DecidableEq, Repr

/-- `Fields` (`derive_godot_class.rs`): the field classification result. -/
structure Fields where
  all_field_names : List String
  base_field : Option ExportedField
deriving DecidableEq, Repr

/-- The loop of `parse_class_attr`: walk the attributes; a second `#[class]`
tag is a fatal error, otherwise the one tag's key-value map is kept. -/
def parse_class_attr_loop : List Attribute → Option KvMap → ParseResult (Option KvMap)
  | [], godot_attr => Except.ok godot_attr
  | attr :: rest, godot_attr =>
    if path_is_single attr.path "class" then
      if godot_attr.isSome then
        Except.error "Only one #[class] attribute per item (struct, fn, ...) allowed"
      else
        parse_class_attr_loop rest (some attr.kv)
    else
      parse_class_attr_loop rest godot_attr

/-- `parse_class_attr` (`derive_godot_class.rs`): the `#[class(...)]` tag's
key-value map, if the tag is present. -/
def parse_class_attr (attributes : List Attribute) : ParseResult (Option KvMap) :=
  parse_class_attr_loop attributes Option.none

/-- The loop of `parse_property_attrs`: each `#[property(...)]` tag must
carry the four keys `name`, `variant_type`, `getter`, `setter`, extracted
in that priority order, each as a literal; the first missing or misshapen
key aborts, a leftover key aborts, and parsed descriptors accumulate in
tag order. -/
def parse_property_attrs_loop : List Attribute → List PropertyInfoAttribute → ParseResult (List PropertyInfoAttribute)
  | [], acc => Except.ok acc
  | attr :: rest, acc =>
    if path_is_single attr.path "property" then
      match attr.kv.remove "name" with
      | (some (KvValue.lit property_name), map) =>
        match map.remove "variant_type" with
        | (some (KvValue.lit property_variant_type), map) =>
          match map.remove "getter" with
          | (some (KvValue.lit property_getter), map) =>
            match map.remove "setter" with
            | (some (KvValue.lit property_setter), map) =>
              match ensure_kv_empty map with
              | Except.error e => Except.error e
              | Except.ok _ =>
                parse_property_attrs_loop rest (acc ++
                  [{ name := property_name, getter := property_getter,
                     setter := property_setter, variant_type := property_variant_type }])
            | (some _, _) =>
              Except.error "#[property] attribute with a setter that isn't an identifier"
            | (Option.none, _) => Except.error "#[property] attribute without any setter"
          | (some _, _) =>
            Except.error "#[property] attribute with a getter that isn't an identifier"
          | (Option.none, _) => Except.error "#[property] attribute without any getter"
        | (some _, _) =>
          Except.error "#[property] attribute with a variant_type that isn't an identifier"
        | (Option.none, _) => Except.error "#[property] attribute without any variant_type"
      | (some _, _) =>
        Except.error "#[property] attribute with a name that isn't an identifier"
      | (Option.none, _) => Except.error "#[property] attribute without any name"
    else
      parse_property_attrs_loop rest acc

/-- `parse_property_attrs` (`derive_godot_class.rs`): the parsed
`#[property(...)]` descriptors, in the order the tags appear. -/
def parse_property_attrs (attributes : List Attribute) : ParseResult (List PropertyInfoAttribute) :=
  parse_property_attrs_loop attributes []

/-- The body of the `if let Some((span, map))` branch of
`parse_struct_attributes`, factored into a named definition: process the
one `#[class(...)]` tag's key-value map — the `base` key may override the
default base with a bare identifier, the `init` key must carry no value
and sets the init flag, and the map must be empty afterwards. -/
def configSpec (map : KvMap) : ParseResult (String × Bool) := do
  let (base_val, map) := map.remove "base"
  let base ← match base_val with
    | Option.none => pure "RefCounted"
    | some (KvValue.ident override_base) => pure override_base
    | some _ => Except.error "Invalid value for 'base' argument"
  let (init_val, map) := map.remove "init"
  let has_generated_init ← match init_val with
    | Option.none => pure false
    | some KvValue.none => pure true
    | some _ => Except.error "Argument 'init' must not have a value"
  let _ ← ensure_kv_empty map
  pure (base, has_generated_init)

/-- `parse_struct_attributes` (`derive_godot_class.rs`): the defaults are
base `RefCounted` and no generated init; the `#[class(...)]` tag may
override them through `configSpec`; the property descriptors are parsed
from the same attribute list. -/
def parse_struct_attributes (cls : Struct) : ParseResult ClassAttributes := do
  let attr? ← parse_class_attr cls.attributes
  let (base, has_generated_init) ←
    match attr? with
    | Option.none => pure ("RefCounted", false)
    | some map => configSpec map
  let properties ← parse_property_attrs cls.attributes
  pure { base_ty := base, has_generated_init := has_generated_init, properties := properties }

/-- Whether an attribute is the `#[base]` field marker (a single-segment
path `base`), as tested by the field loop of `parse_fields`. -/
def isBaseAttr (a : Attribute) : Bool :=
  a.getSinglePathSegment == some "base"

/-- The duplicate-base-field diagnostic of `parse_fields`, naming the field
already designated. -/
def dupBaseMsg (field_name : String) : String :=
  "#[base] allowed for at most 1 field, already applied to '" ++ field_name ++ "'"

/-- The attribute loop of `parse_fields` for one field: scans the field's
attributes; a `#[base]` marker designates the field, unless a base field is
already recorded, which is the duplicate-base fatal error naming that
earlier field.  (`#[export]` markers are collected into `exported_fields`
in the source and then discarded; the classification result does not
contain them, so the collection is not carried here.)  Hands back the
field's `is_base` flag and the updated base-field record. -/
def parse_fields_attr_loop (field_name : String) (field_ty : String) :
    List Attribute → Bool → Option ExportedField → ParseResult (Bool × Option ExportedField)
  | [], is_base, base_field => Except.ok (is_base, base_field)
  | attr :: rest, is_base, base_field =>
    match attr.getSinglePathSegment with
    | some p =>
      if p = "base" then
        match base_field with
        | some prev_base => Except.error (dupBaseMsg prev_base.name)
        | Option.none =>
          parse_fields_attr_loop field_name field_ty rest true
            (some { name := field_name, ty := field_ty })
      else
        parse_fields_attr_loop field_name field_ty rest is_base base_field
    | Option.none => parse_fields_attr_loop field_name field_ty rest is_base base_field

/-- The field loop of `parse_fields`: classify each named field in source
order; fields without the base marker are appended to the plain-field
list. -/
def parse_fields_loop : List NamedField → List String → Option ExportedField → ParseResult Fields
  | [], all_field_names, base_field =>
    Except.ok { all_field_names := all_field_names, base_field := base_field }
  | field :: rest, all_field_names, base_field =>
    match parse_fields_attr_loop field.name field.ty field.attributes false base_field with
    | Except.error e => Except.error e
    | Except.ok (is_base, base_field) =>
      parse_fields_loop rest
        (if is_base then all_field_names else all_field_names ++ [field.name])
        base_field

/-- `parse_fields` (`derive_godot_class.rs`): unit structs classify as
empty, tuple structs are a fatal error, named fields are classified in
source order. -/
def parse_fields (cls : Struct) : ParseResult Fields :=
  match cls.fields with
  | StructFields.unit => parse_fields_loop [] [] Option.none
  | StructFields.tuple _ =>
    Except.error "#[derive(GodotClass)] not supported for tuple structs"
  | StructFields.named fields => parse_fields_loop fields [] Option.none

/-- One field assignment in the emitted `__godot_init` constructor body:
either `#field: std::default::Default::default(),` or `#field: base,`. -/
inductive FieldInit where
  | defaultInit (field : String)
  | baseInit (field : String)
deriving DecidableEq, Repr

/-- The emitted `GodotInit` impl block, structurally: the class it is for
and its constructor's field assignments in emission order. -/
structure GodotInitImpl where
  class_name : String
  assignments : List FieldInit
deriving DecidableEq, Repr

/-- `make_godot_init_impl` (`derive_godot_class.rs`): the default
assignments of the plain fields, in classification order, followed by the
base-field assignment when a base field exists. -/
def make_godot_init_impl (class_name : String) (fields : Fields) : GodotInitImpl :=
  let base_init : List FieldInit :=
    match fields.base_field with
    | some f => [FieldInit.baseInit f.name]
    | Option.none => []
  let rest_init := fields.all_field_names.map FieldInit.defaultInit
  { class_name := class_name, assignments := rest_init ++ base_init }

/-- Modelled from the spec: the text of the variant-type expression the
emitter splices into every registration call — the fixed placeholder
`::godot_ffi::VariantType::Int` (the descriptor's own tag is commented out
in the source's template). -/
def variantTypeInt : String := "::godot_ffi::VariantType::Int"

/-- Modelled from the spec: whether a string is the text of one literal
token, so that `proc_macro2::Literal::from_str` (an external dependency,
used with `.unwrap()` by the property emitter) accepts it.  Simplified to
the literal shapes of the recognized tag grammar `key="literal"`: a quoted
string or a number. -/
def isLiteralText (s : String) : Bool :=
  !s.isEmpty && (s.front.isDigit || s.front = '"')

/-- Modelled from the spec: `proc_macro2::Literal::from_str` — `some` the
literal on literal-token text, failure otherwise (which the source turns
into a panic with `.unwrap()`). -/
def literalFromStr (s : String) : Option String :=
  if isLiteralText s then some s else Option.none

/-- One emitted property-registration call
(`classdb_register_extension_class_property` block), structurally: the
data the template splices in. -/
structure PropRegistrationCall where
  class_name : String
  variant_type : String
  property_name : String
  getter : String
  setter : String
deriving DecidableEq, Repr

/-- The emitted `GodotProperties` impl block: its registration calls in
emission order. -/
structure GodotPropertiesImpl where
  class_name : String
  calls : List PropRegistrationCall
deriving DecidableEq, Repr

/-- The body of the per-descriptor closure inside
`make_godot_properties_impl`: the three `Literal::from_str(...).unwrap()`
calls (a failing one is a panic, `Option.none`), then the registration
call with the fixed placeholder variant type; the descriptor's
`variant_type` is bound in the source but not spliced into the emitted
tokens. -/
def make_property_call (class_name : String) (property_info : PropertyInfoAttribute) :
    Option PropRegistrationCall := do
  let name ← literalFromStr property_info.name
  let getter ← literalFromStr property_info.getter
  let setter ← literalFromStr property_info.setter
  some { class_name := class_name, variant_type := variantTypeInt,
         property_name := name, getter := getter, setter := setter }

/-- The `map(...).collect()` over the descriptors with a panic shortcut:
the per-descriptor emission runs left to right and a panic anywhere aborts
the whole expansion. -/
def collectCalls (f : PropertyInfoAttribute → Option PropRegistrationCall) :
    List PropertyInfoAttribute → Option (List PropRegistrationCall)
  | [] => some []
  | p :: rest => do
    let c ← f p
    let cs ← collectCalls f rest
    some (c :: cs)

/-- `make_godot_properties_impl` (`derive_godot_class.rs`): one
registration call per descriptor, in descriptor order.  `Option.none` is
the panic of an `.unwrap()` on a descriptor string that is not literal
text. -/
def make_godot_properties_impl (class_name : String)
    (properties : List PropertyInfoAttribute) : Option GodotPropertiesImpl := do
  let calls ← collectCalls (make_property_call class_name) properties
  some { class_name := class_name, calls := calls }

/-- The emitted `Deref`/`DerefMut` impl pair, structurally: the field each
of the two bodies projects to. -/
structure DerefImpl where
  class_name : String
  deref_target : String
  deref_mut_target : String
deriving DecidableEq, Repr

/-- `make_deref_impl` (`derive_godot_class.rs`): emitted only when a base
field exists, with both delegation bodies targeting it; otherwise nothing
(`TokenStream::new()`). -/
def make_deref_impl (class_name : String) (fields : Fields) : Option DerefImpl :=
  match fields.base_field with
  | some f =>
    some { class_name := class_name, deref_target := f.name, deref_mut_target := f.name }
  | Option.none => Option.none

/-- The constructor reference `#prv::callbacks::create::<#class_name>`
spliced into the plugin record when the init flag is set. -/
def create_fn_ref (class_name : String) : String :=
  "::godot::private::callbacks::create::<" ++ class_name ++ ">"

/-- The destructor reference `#prv::callbacks::free::<#class_name>` always
spliced into the plugin record. -/
def free_fn_ref (class_name : String) : String :=
  "::godot::private::callbacks::free::<" ++ class_name ++ ">"

/-- The `ClassPlugin` record appended to the process-wide registry by the
emitted `plugin_add!` invocation. -/
structure ClassPlugin where
  class_name : String
  base_class_name : String
  generated_create_fn : Option String
  free_fn : String
deriving DecidableEq, Repr

/-- The whole emitted token stream of one successful expansion,
structurally: the `GodotClass` identity impl (class name and `Base`
associated type), the optional constructor impl, the properties impl, the
optional delegation impls, the plugin-registry record and the
`inherits_transitive_*` macro invocation. -/
structure TokenStreamOut where
  class_name : String
  base_ty : String
  godot_init_impl : Option GodotInitImpl
  godot_properties_impl : GodotPropertiesImpl
  deref_impl : Option DerefImpl
  plugin : ClassPlugin
  inherits_macro : String
deriving DecidableEq, Repr

/-- `transform` (`derive_godot_class.rs`): the derive expansion of one
declaration.  The outer `Option` is panic (`Option.none`, from the
property emitter's `.unwrap()` calls); the inner `ParseResult` carries the
compile-time diagnostics. -/
def transform (input : MacroInput) : Option (ParseResult TokenStreamOut) :=
  match input with
  | MacroInput.parseError e => some (Except.error e)
  | MacroInput.parsed Declaration.other => some (Except.error "Not a valid struct")
  | MacroInput.parsed (Declaration.struct cls) =>
    match parse_struct_attributes cls with
    | Except.error e => some (Except.error e)
    | Except.ok struct_cfg =>
      match parse_fields cls with
      | Except.error e => some (Except.error e)
      | Except.ok fields =>
        let base_ty := struct_cfg.base_ty
        let class_name := cls.name
        let deref_impl := make_deref_impl class_name fields
        let godot_init_impl :=
          if struct_cfg.has_generated_init then
            some (make_godot_init_impl class_name fields)
          else Option.none
        let create_fn :=
          if struct_cfg.has_generated_init then some (create_fn_ref class_name)
          else Option.none
        match make_godot_properties_impl class_name struct_cfg.properties with
        | Option.none => Option.none
        | some godot_properties_impl =>
          some (Except.ok {
            class_name := class_name,
            base_ty := base_ty,
            godot_init_impl := godot_init_impl,
            godot_properties_impl := godot_properties_impl,
            deref_impl := deref_impl,
            plugin := { class_name := class_name, base_class_name := base_ty,
                        generated_create_fn := create_fn,
                        free_fn := free_fn_ref class_name },
            inherits_macro := "inherits_transitive_" ++ base_ty })

/-- The `#[class(...)]` tags of an attribute list, in order. -/
def classAttrs (attributes : List Attribute) : List Attribute :=
  attributes.filter (fun a => path_is_single a.path "class")

/-- Whether a field carries at least one `#[base]` marker. -/
def hasBaseAttr (f : NamedField) : Bool :=
  f.attributes.any isBaseAttr

/-- How many `#[base]` markers the declaration carries in total, over all
fields and repeated markers on one field alike. -/
def baseAttrCount (fs : List NamedField) : Nat :=
  (fs.map (fun f => f.attributes.countP isBaseAttr)).sum

/-- The first field, in source order, that carries a `#[base]` marker. -/
def firstBaseField? (fs : List NamedField) : Option NamedField :=
  fs.find? hasBaseAttr

/-- Whether the value is a bare identifier. -/
def KvValue.isIdent : KvValue → Bool
  | KvValue.ident _ => true
  | _ => false

/-- The failure conditions of configuration-tag processing on the one
`#[class(...)]` tag's key-value map: a `base` value that is not a bare
identifier, an `init` key that carries a value, or a key left over once
`base` and `init` are removed. -/
def configTagFails (m : KvMap) : Bool :=
  (match m.lookupLast "base" with
   | some v => !v.isIdent
   | Option.none => false) ||
  (match m.lookupLast "init" with
   | some KvValue.none => false
   | some _ => true
   | Option.none => false) ||
  !((m.eraseKey "base").eraseKey "init").isEmpty

/-- The spec's contract for one property-descriptor tag (spec section 4.2),
written from its words: extract the four required string-valued keys
`name`, `variant_type`, `getter`, `setter` in that priority order; the
first missing key aborts with a message identifying which key is absent,
a present key whose value is not a plain string literal aborts with a
message naming that key, and after the four are extracted any leftover key
is a fatal error; otherwise the descriptor with those four values. -/
def propertyTagSpec (m : KvMap) : Except String PropertyInfoAttribute :=
  match m.remove "name" with
  | (Option.none, _) => Except.error "#[property] attribute without any name"
  | (some (KvValue.lit name), m) =>
    match m.remove "variant_type" with
    | (Option.none, _) => Except.error "#[property] attribute without any variant_type"
    | (some (KvValue.lit variant_type), m) =>
      match m.remove "getter" with
      | (Option.none, _) => Except.error "#[property] attribute without any getter"
      | (some (KvValue.lit getter), m) =>
        match m.remove "setter" with
        | (Option.none, _) => Except.error "#[property] attribute without any setter"
        | (some (KvValue.lit setter), m) =>
          match ensure_kv_empty m with
          | Except.error e => Except.error e
          | Except.ok _ =>
            Except.ok { name := name, getter := getter,
                        setter := setter, variant_type := variant_type }
        | (some _, _) =>
          Except.error "#[property] attribute with a setter that isn't an identifier"
      | (some _, _) =>
        Except.error "#[property] attribute with a getter that isn't an identifier"
    | (some _, _) =>
      Except.error "#[property] attribute with a variant_type that isn't an identifier"
  | (some _, _) =>
    Except.error "#[property] attribute with a name that isn't an identifier"

/-- The sequential parse of all property tags, spec-side: each
`#[property(...)]` tag in order through the section 4.2 contract, the
first error aborting. -/
def propertyTagsParse : List Attribute → ParseResult (List PropertyInfoAttribute)
  | [] => Except.ok []
  | a :: rest => do
    let p ← propertyTagSpec a.kv
    let ps ← propertyTagsParse rest
    Except.ok (p :: ps)

/-- The registration call the template produces for one descriptor when no
panic intervenes: the descriptor's name, getter and setter verbatim around
the fixed placeholder variant type. -/
def expectedCall (class_name : String) (p : PropertyInfoAttribute) : PropRegistrationCall :=
  { class_name := class_name, variant_type := variantTypeInt,
    property_name := p.name, getter := p.getter, setter := p.setter }

/-- A descriptor without its variant-type tag: what remains may not change
between two descriptor lists if the emitted properties impl is to be the
same. -/
def stripVariantType (p : PropertyInfoAttribute) : String × String × String :=
  (p.name, p.getter, p.setter)

/-- The diagnostic of a second `#[class(...)]` tag on one declaration. -/
def onlyOneClassMsg : String :=
  "Only one #[class] attribute per item (struct, fn, ...) allowed"

/-- Whether every literal value of the tag's key-value map is the text of a
literal token — what `util::parse_kv_group` guarantees for the maps it
builds from actual token streams (modelled from the spec: its `Lit` values
keep the literal's token text). -/
def KvValue.litWF : KvValue → Bool
  | KvValue.lit l => isLiteralText l
  | _ => true

/-- Every value of the map is well formed literal-wise. -/
def KvMap.litWF (m : KvMap) : Bool :=
  m.all (fun p => p.2.litWF)

/-- All of the tag's values are well formed literal-wise. -/
def Attribute.litWF (a : Attribute) : Bool :=
  a.kv.litWF

/-- A descriptor whose name, getter and setter are literal-token text: the
property emitter's `.unwrap()` calls cannot panic on it. -/
def PropertyInfoAttribute.litWF (p : PropertyInfoAttribute) : Bool :=
  isLiteralText p.name && isLiteralText p.getter && isLiteralText p.setter

/-- A macro input whose struct attributes hold only well formed literal
values — every input that reaches the macro through the compiler's lexer
and `util::parse_kv_group` is of this shape. -/
def MacroInput.litWF : MacroInput → Bool
  | MacroInput.parseError _ => true
  | MacroInput.parsed Declaration.other => true
  | MacroInput.parsed (Declaration.struct cls) => cls.attributes.all Attribute.litWF

/-- What one macro invocation hands back to the compiler: the expansion, or
the diagnostic token stream `error.to_compile_error()`. -/
inductive MacroOutput where
  | expanded (ts : TokenStreamOut)
  | compileError (msg : String)
deriving DecidableEq, Repr

/-- `translate` (`lib.rs`): the top-level entry point around `transform` —
an `Err` from the transform becomes an emitted compile-error token stream.
A panic (`Option.none`) would escape it; the claims show it cannot arise
on well-formed inputs. -/
def translate (input : MacroInput) : Option MacroOutput :=
  match transform input with
  | Option.none => Option.none
  | some (Except.ok output) => some (MacroOutput.expanded output)
  | some (Except.error e) => some (MacroOutput.compileError e)

/-- A concrete `#[property(name="health", variant_type="Int",
getter="get_health", setter="set_health")]` tag. -/
def exPropertyAttr : Attribute :=
  { path := ["property"]
    kv := [("name", KvValue.lit "\"health\""), ("variant_type", KvValue.lit "\"Int\""),
           ("getter", KvValue.lit "\"get_health\""), ("setter", KvValue.lit "\"set_health\"")] }

/-- The spec's Scenario A declaration: `#[class(base=Node2D, init)]` with a
plain field `speed`, a `#[base]` field `body`, and one property tag. -/
def exStructA : Struct :=
  { name := "MyClass"
    attributes := [{ path := ["class"],
                     kv := [("base", KvValue.ident "Node2D"), ("init", KvValue.none)] },
                   exPropertyAttr]
    fields := StructFields.named [
      { name := "speed", ty := "f32", attributes := [] },
      { name := "body", ty := "Base", attributes := [{ path := ["base"], kv := [] }] }] }

/-- The named fields of the Scenario A declaration. -/
def exFieldsA : List NamedField :=
  [{ name := "speed", ty := "f32", attributes := [] },
   { name := "body", ty := "Base", attributes := [{ path := ["base"], kv := [] }] }]

/-- A declaration with two `#[base]`-marked fields. -/
def exDupStruct : Struct :=
  { name := "Dup"
    attributes := []
    fields := StructFields.named [
      { name := "a", ty := "T", attributes := [{ path := ["base"], kv := [] }] },
      { name := "b", ty := "T", attributes := [{ path := ["base"], kv := [] }] }] }

/-- The named fields of the duplicate-base declaration. -/
def exDupFields : List NamedField :=
  [{ name := "a", ty := "T", attributes := [{ path := ["base"], kv := [] }] },
   { name := "b", ty := "T", attributes := [{ path := ["base"], kv := [] }] }]

/-- A unit struct with an `#[class(init)]` tag and no base field. -/
def exInitStruct : Struct :=
  { name := "Plain"
    attributes := [{ path := ["class"], kv := [("init", KvValue.none)] }]
    fields := StructFields.named [
      { name := "x", ty := "i64", attributes := [] },
      { name := "y", ty := "i64", attributes := [] }] }

/-- A declaration with a base field and no `#[class]` tag at all. -/
def exBaseNoInitStruct : Struct :=
  { name := "Held"
    attributes := []
    fields := StructFields.named [
      { name := "node", ty := "Base", attributes := [{ path := ["base"], kv := [] }] },
      { name := "hp", ty := "u32", attributes := [] }] }

/-- A unit struct without any attribute. -/
def exUnitStruct : Struct :=
  { name := "Empty", attributes := [], fields := StructFields.unit }

/-- A tuple struct. -/
def exTupleStruct : Struct :=
  { name := "Pair", attributes := [], fields := StructFields.tuple 2 }

/-- An `#[class(init)]` declaration whose `#[base]` field comes first in
the source, before a plain field. -/
def exBaseFirstStruct : Struct :=
  { name := "First"
    attributes := [{ path := ["class"], kv := [("init", KvValue.none)] }]
    fields := StructFields.named [
      { name := "b", ty := "Base", attributes := [{ path := ["base"], kv := [] }] },
      { name := "x", ty := "i64", attributes := [] }] }

/-- The named fields of the base-first declaration. -/
def exBaseFirstFields : List NamedField :=
  [{ name := "b", ty := "Base", attributes := [{ path := ["base"], kv := [] }] },
   { name := "x", ty := "i64", attributes := [] }]

/-- A declaration carrying two `#[class]` tags. -/
def exDupClassStruct : Struct :=
  { name := "Twice"
    attributes := [{ path := ["class"], kv := [] }, { path := ["class"], kv := [] }]
    fields := StructFields.unit }


/-- A value `lookupLast` finds is a binding of the map. -/
theorem lookupLast_mem {m : KvMap} {k : String} {v : KvValue}
    (h : m.lookupLast k = some v) : (k, v) ∈ m := by
  induction m with
  | nil => simp [KvMap.lookupLast] at h
  | cons p rest ih =>
    rcases p with ⟨k', v'⟩
    rw [KvMap.lookupLast] at h
    cases hr : KvMap.lookupLast rest k with
    | none =>
      rw [hr] at h
      by_cases hk : k' = k
      · subst hk
        simp at h
        subst h
        exact List.mem_cons_self _ _
      · simp [hk] at h
    | some v'' =>
      rw [hr] at h
      simp at h
      subst h
      exact List.mem_cons_of_mem _ (ih hr)

/-- A binding of the erased map is a binding of the map. -/
theorem mem_eraseKey {m : KvMap} {k k' : String} {v : KvValue}
    (h : (k', v) ∈ m.eraseKey k) : (k', v) ∈ m :=
  (List.mem_filter.mp h).1

/-- Erasing one key leaves the lookup of a different key unchanged. -/
theorem lookupLast_eraseKey_ne {m : KvMap} {k k' : String} (h : k ≠ k') :
    (m.eraseKey k').lookupLast k = m.lookupLast k := by
  induction m with
  | nil => rfl
  | cons p rest ih =>
    rcases p with ⟨k0, v0⟩
    by_cases h0 : k0 = k'
    · rw [show KvMap.eraseKey ((k0, v0) :: rest) k' = KvMap.eraseKey rest k' by
        simp [KvMap.eraseKey, h0]]
      rw [ih, KvMap.lookupLast]
      cases hr : KvMap.lookupLast rest k with
      | none => simp [show ¬(k0 = k) from fun hc => h (hc ▸ h0)]
      | some v'' => rfl
    · rw [show KvMap.eraseKey ((k0, v0) :: rest) k' = (k0, v0) :: KvMap.eraseKey rest k' by
        simp [KvMap.eraseKey, h0]]
      rw [KvMap.lookupLast, KvMap.lookupLast, ih]

/-- The `parse_class_attr` loop with a tag already recorded: any further
`#[class]` tag is the duplicate error. -/
theorem parse_class_attr_loop_some (attrs : List Attribute) (m : KvMap) :
    parse_class_attr_loop attrs (some m) =
      if (classAttrs attrs).isEmpty then Except.ok (some m)
      else Except.error onlyOneClassMsg := by
  induction attrs with
  | nil => simp [parse_class_attr_loop, classAttrs]
  | cons a rest ih =>
    cases h : path_is_single a.path "class" with
    | true => simp [parse_class_attr_loop, h, classAttrs, List.filter_cons, onlyOneClassMsg]
    | false => simp [parse_class_attr_loop, h, classAttrs, List.filter_cons] at ih ⊢; exact ih

/-- `parse_class_attr`, characterized: two `#[class]` tags are the
duplicate error, otherwise the first (sole) tag's map, if any, is handed
back. -/
theorem parse_class_attr_eq (attributes : List Attribute) :
    parse_class_attr attributes =
      if 2 ≤ (classAttrs attributes).length then Except.error onlyOneClassMsg
      else Except.ok ((classAttrs attributes).head?.map Attribute.kv) := by
  unfold parse_class_attr
  induction attributes with
  | nil => simp [parse_class_attr_loop, classAttrs]
  | cons a rest ih =>
    cases h : path_is_single a.path "class" with
    | true =>
      rw [parse_class_attr_loop]
      simp only [h, if_true, Option.isSome_none, Bool.false_eq_true, if_false]
      rw [parse_class_attr_loop_some]
      have hc : classAttrs (a :: rest) = a :: classAttrs rest := by
        simp [classAttrs, List.filter_cons, h]
      rw [hc]
      cases hr : classAttrs rest with
      | nil => simp
      | cons b t => simp [Nat.succ_le_succ, List.length_cons]
    | false =>
      rw [parse_class_attr_loop]
      simp only [h, Bool.false_eq_true, if_false]
      have hc : classAttrs (a :: rest) = classAttrs rest := by
        simp [classAttrs, List.filter_cons, h]
      rw [hc]
      exact ih

/-- `parse_struct_attributes` with no `#[class]` tag: the defaults flow
through, and only property parsing can still fail. -/
theorem psa_none (cls : Struct) (h : parse_class_attr cls.attributes = Except.ok Option.none) :
    parse_struct_attributes cls =
      match parse_property_attrs cls.attributes with
      | Except.ok ps =>
        Except.ok { base_ty := "RefCounted", has_generated_init := false, properties := ps }
      | Except.error e => Except.error e := by
  unfold parse_struct_attributes
  rw [h]
  simp only [Bind.bind, Except.bind]
  cases hp : parse_property_attrs cls.attributes <;> simp [pure, Except.pure]

/-- `parse_struct_attributes` with exactly one `#[class]` tag: the tag's
map goes through `configSpec`, then property parsing. -/
theorem psa_some (cls : Struct) (m : KvMap)
    (h : parse_class_attr cls.attributes = Except.ok (some m)) :
    parse_struct_attributes cls =
      match configSpec m with
      | Except.error e => Except.error e
      | Except.ok (base, hgi) =>
        match parse_property_attrs cls.attributes with
        | Except.ok ps =>
          Except.ok { base_ty := base, has_generated_init := hgi, properties := ps }
        | Except.error e => Except.error e := by
  unfold parse_struct_attributes
  rw [h]
  simp only [Bind.bind, Except.bind]
  cases hc : configSpec m with
  | error e => rfl
  | ok v =>
    rcases v with ⟨base, hgi⟩
    cases hp : parse_property_attrs cls.attributes <;> simp [pure, Except.pure]

/-- A failing `parse_class_attr` fails `parse_struct_attributes` with the
same diagnostic. -/
theorem psa_err (cls : Struct) (e : String)
    (h : parse_class_attr cls.attributes = Except.error e) :
    parse_struct_attributes cls = Except.error e := by
  unfold parse_struct_attributes
  rw [h]
  rfl

/-- `configSpec` fails exactly under `configTagFails`: a `base` value that
is not a bare identifier, an `init` key with a value, or a leftover key. -/
theorem configSpec_error_iff (m : KvMap) :
    (∃ e, configSpec m = Except.error e) ↔ configTagFails m = true := by
  unfold configSpec configTagFails
  simp only [KvMap.remove]
  rw [lookupLast_eraseKey_ne (show "init" ≠ "base" by decide)]
  cases hb : m.lookupLast "base" with
  | none =>
    simp only [Bind.bind, Except.bind, pure, Except.pure]
    cases hi : m.lookupLast "init" with
    | none =>
      cases hk : (m.eraseKey "base").eraseKey "init" with
      | nil => simp [ensure_kv_empty, KvValue.isIdent]
      | cons p t => simp [ensure_kv_empty, KvValue.isIdent]
    | some v =>
      cases v with
      | none =>
        cases hk : (m.eraseKey "base").eraseKey "init" with
        | nil => simp [ensure_kv_empty, KvValue.isIdent]
        | cons p t => simp [ensure_kv_empty, KvValue.isIdent]
      | ident i => simp [KvValue.isIdent]
      | lit l => simp [KvValue.isIdent]
  | some v =>
    cases v with
    | ident i =>
      simp only [Bind.bind, Except.bind, pure, Except.pure]
      cases hi : m.lookupLast "init" with
      | none =>
        cases hk : (m.eraseKey "base").eraseKey "init" with
        | nil => simp [ensure_kv_empty, KvValue.isIdent]
        | cons p t => simp [ensure_kv_empty, KvValue.isIdent]
      | some v' =>
        cases v' with
        | none =>
          cases hk : (m.eraseKey "base").eraseKey "init" with
          | nil => simp [ensure_kv_empty, KvValue.isIdent]
          | cons p t => simp [ensure_kv_empty, KvValue.isIdent]
        | ident i' => simp [KvValue.isIdent]
        | lit l => simp [KvValue.isIdent]
    | none => simp [Bind.bind, Except.bind, KvValue.isIdent]
    | lit l => simp [Bind.bind, Except.bind, KvValue.isIdent]

/-- One step of the property loop on a `#[property]` tag is the section 4.2
per-tag contract followed by the loop on the rest. -/
theorem parse_property_attrs_loop_cons_property (a : Attribute) (rest : List Attribute)
    (acc : List PropertyInfoAttribute) (h : path_is_single a.path "property" = true) :
    parse_property_attrs_loop (a :: rest) acc =
      match propertyTagSpec a.kv with
      | Except.ok p => parse_property_attrs_loop rest (acc ++ [p])
      | Except.error e => Except.error e := by
  rw [parse_property_attrs_loop]
  simp only [h, if_true]
  unfold propertyTagSpec
  rcases hr1 : a.kv.remove "name" with ⟨v1, m1⟩
  cases v1 with
  | none => simp
  | some kv1 =>
    cases kv1 with
    | none => simp
    | ident i => simp
    | lit s1 =>
      simp only []
      rcases hr2 : m1.remove "variant_type" with ⟨v2, m2⟩
      cases v2 with
      | none => simp
      | some kv2 =>
        cases kv2 with
        | none => simp
        | ident i => simp
        | lit s2 =>
          simp only []
          rcases hr3 : m2.remove "getter" with ⟨v3, m3⟩
          cases v3 with
          | none => simp
          | some kv3 =>
            cases kv3 with
            | none => simp
            | ident i => simp
            | lit s3 =>
              simp only []
              rcases hr4 : m3.remove "setter" with ⟨v4, m4⟩
              cases v4 with
              | none => simp
              | some kv4 =>
                cases kv4 with
                | none => simp
                | ident i => simp
                | lit s4 =>
                  simp only []
                  cases he : ensure_kv_empty m4 with
                  | error e => simp
                  | ok u => simp

/-- The property loop, characterized: the spec-side sequential parse of the
`#[property]` tags, results appended to the accumulator. -/
theorem parse_property_attrs_loop_eq (attrs : List Attribute) (acc : List PropertyInfoAttribute) :
    parse_property_attrs_loop attrs acc =
      match propertyTagsParse (attrs.filter (fun a => path_is_single a.path "property")) with
      | Except.ok ps => Except.ok (acc ++ ps)
      | Except.error e => Except.error e := by
  induction attrs generalizing acc with
  | nil => simp [parse_property_attrs_loop, propertyTagsParse]
  | cons a rest ih =>
    cases h : path_is_single a.path "property" with
    | false =>
      rw [parse_property_attrs_loop]
      simp only [h, Bool.false_eq_true, if_false, List.filter_cons]
      exact ih acc
    | true =>
      rw [parse_property_attrs_loop_cons_property a rest acc h]
      have hf : (a :: rest).filter (fun a => path_is_single a.path "property") =
          a :: rest.filter (fun a => path_is_single a.path "property") := by
        simp [List.filter_cons, h]
      rw [hf, propertyTagsParse]
      cases hs : propertyTagSpec a.kv with
      | error e => simp [Bind.bind, Except.bind]
      | ok p =>
        simp only [Bind.bind, Except.bind]
        rw [ih (acc ++ [p])]
        cases ht : propertyTagsParse (rest.filter (fun a => path_is_single a.path "property")) with
        | error e => rfl
        | ok ps => simp

/-- `parse_property_attrs` refines the spec-side parse of exactly the
`#[property]` tags, in order. -/
theorem parse_property_attrs_eq (attributes : List Attribute) :
    parse_property_attrs attributes =
      propertyTagsParse (attributes.filter (fun a => path_is_single a.path "property")) := by
  unfold parse_property_attrs
  rw [parse_property_attrs_loop_eq]
  cases h : propertyTagsParse (attributes.filter (fun a => path_is_single a.path "property")) <;>
    simp

/-- A list has no element satisfying `p` exactly when its `countP` is zero. -/
theorem any_eq_false_iff_countP_eq_zero {α : Type} (p : α → Bool) (l : List α) :
    (l.any p = false) ↔ l.countP p = 0 := by
  rw [List.countP_eq_zero]
  simp [List.any_eq_true]

/-- The field attribute loop with a base field already recorded: any
further base marker on this field is the duplicate error naming the
recorded field. -/
theorem parse_fields_attr_loop_some (n ty : String) (attrs : List Attribute)
    (is_b : Bool) (b : ExportedField) :
    parse_fields_attr_loop n ty attrs is_b (some b) =
      if attrs.any isBaseAttr then Except.error (dupBaseMsg b.name)
      else Except.ok (is_b, some b) := by
  induction attrs generalizing is_b with
  | nil => simp [parse_fields_attr_loop]
  | cons a rest ih =>
    rw [parse_fields_attr_loop]
    cases hseg : a.getSinglePathSegment with
    | none =>
      have hb : isBaseAttr a = false := by simp [isBaseAttr, hseg]
      simp only [List.any_cons, hb, Bool.false_or]
      exact ih is_b
    | some p =>
      by_cases hp : p = "base"
      · subst hp
        have hb : isBaseAttr a = true := by simp [isBaseAttr, hseg]
        simp [List.any_cons, hb]
      · have hb : isBaseAttr a = false := by simp [isBaseAttr, hseg, hp]
        simp only [List.any_cons, hb, Bool.false_or, hp, if_false]
        exact ih is_b

/-- The field attribute loop with no base field recorded, by the number of
base markers on this field: none leaves the state, one designates the
field, two or more is the duplicate error naming this very field. -/
theorem parse_fields_attr_loop_none (n ty : String) (attrs : List Attribute) :
    parse_fields_attr_loop n ty attrs false Option.none =
      if attrs.countP isBaseAttr = 0 then Except.ok (false, Option.none)
      else if attrs.countP isBaseAttr = 1 then
        Except.ok (true, some { name := n, ty := ty })
      else Except.error (dupBaseMsg n) := by
  induction attrs with
  | nil => simp [parse_fields_attr_loop]
  | cons a rest ih =>
    rw [parse_fields_attr_loop]
    cases hseg : a.getSinglePathSegment with
    | none =>
      have hb : isBaseAttr a = false := by simp [isBaseAttr, hseg]
      rw [List.countP_cons]
      simp only [hb, if_false]
      simpa using ih
    | some p =>
      by_cases hp : p = "base"
      · have hb : isBaseAttr a = true := by simp [isBaseAttr, hseg, hp]
        simp only []
        rw [if_pos hp]
        rw [parse_fields_attr_loop_some]
        rw [List.countP_cons]
        simp only [hb, if_true]
        cases ha : rest.any isBaseAttr with
        | false =>
          have h0 : rest.countP isBaseAttr = 0 :=
            (any_eq_false_iff_countP_eq_zero isBaseAttr rest).mp ha
          simp [h0]
        | true =>
          have h0 : rest.countP isBaseAttr ≠ 0 := by
            intro hc
            rw [← any_eq_false_iff_countP_eq_zero isBaseAttr rest] at hc
            rw [ha] at hc
            exact Bool.noConfusion hc
          have h1 : ¬(rest.countP isBaseAttr + 1 = 0) := by omega
          have h2 : ¬(rest.countP isBaseAttr + 1 = 1) := by omega
          simp [h1, h2]
      · have hb : isBaseAttr a = false := by simp [isBaseAttr, hseg, hp]
        rw [List.countP_cons]
        simp only [hb, if_false, hp]
        simpa using ih



/-- `baseAttrCount` unfolds over a cons. -/
theorem baseAttrCount_cons (f : NamedField) (rest : List NamedField) :
    baseAttrCount (f :: rest) = f.attributes.countP isBaseAttr + baseAttrCount rest := by
  simp [baseAttrCount]

/-- A field without the base marker has zero base-marker count. -/
theorem hasBaseAttr_false_iff (f : NamedField) :
    hasBaseAttr f = false ↔ f.attributes.countP isBaseAttr = 0 :=
  any_eq_false_iff_countP_eq_zero isBaseAttr f.attributes

/-- No field carries a base marker exactly when the total count is zero. -/
theorem any_hasBase_false_iff (fs : List NamedField) :
    fs.any hasBaseAttr = false ↔ baseAttrCount fs = 0 := by
  induction fs with
  | nil => simp [baseAttrCount]
  | cons f rest ih =>
    rw [List.any_cons, baseAttrCount_cons]
    rw [Bool.or_eq_false_iff]
    rw [ih, hasBaseAttr_false_iff]
    omega

/-- The field loop with a base field recorded: a base marker anywhere in
the remaining fields is the duplicate error naming the recorded field;
otherwise all remaining names are appended as plain fields. -/
theorem parse_fields_loop_some (fs : List NamedField) (acc : List String) (b : ExportedField) :
    parse_fields_loop fs acc (some b) =
      if fs.any hasBaseAttr then Except.error (dupBaseMsg b.name)
      else Except.ok { all_field_names := acc ++ fs.map NamedField.name, base_field := some b } := by
  induction fs generalizing acc with
  | nil => simp [parse_fields_loop]
  | cons f rest ih =>
    rw [parse_fields_loop, parse_fields_attr_loop_some]
    cases hb : f.attributes.any isBaseAttr with
    | true => simp [List.any_cons, hasBaseAttr, hb]
    | false =>
      simp only [hb, Bool.false_eq_true, if_false]
      try simp only []
      rw [ih]
      simp [List.any_cons, hasBaseAttr, hb]

/-- The field loop with at most one base marker in total: classification
succeeds, plain fields keep source order, and the first (sole) base-marked
field is recorded and excluded from the plain list. -/
theorem parse_fields_loop_none_ok (fs : List NamedField) (acc : List String)
    (h : baseAttrCount fs ≤ 1) :
    parse_fields_loop fs acc Option.none =
      Except.ok { all_field_names :=
                    acc ++ (fs.filter (fun f => !hasBaseAttr f)).map NamedField.name,
                  base_field :=
                    (firstBaseField? fs).map (fun f => { name := f.name, ty := f.ty }) } := by
  induction fs generalizing acc with
  | nil => simp [parse_fields_loop, firstBaseField?]
  | cons f rest ih =>
    rw [parse_fields_loop, parse_fields_attr_loop_none]
    cases hb : hasBaseAttr f with
    | false =>
      have h0 : f.attributes.countP isBaseAttr = 0 := (hasBaseAttr_false_iff f).mp hb
      simp only [h0, reduceIte]
      simp only [Bool.false_eq_true, reduceIte]
      have hr : baseAttrCount rest ≤ 1 := by
        rw [baseAttrCount_cons] at h; omega
      rw [ih (acc ++ [f.name]) hr]
      simp [List.filter_cons, hb, firstBaseField?, List.find?_cons, List.append_assoc]
    | true =>
      have h1 : f.attributes.countP isBaseAttr ≠ 0 := by
        intro h0
        rw [← hasBaseAttr_false_iff] at h0
        rw [hb] at h0
        exact Bool.noConfusion h0
      have hcnt : f.attributes.countP isBaseAttr = 1 := by
        rw [baseAttrCount_cons] at h; omega
      have hrest : baseAttrCount rest = 0 := by
        rw [baseAttrCount_cons] at h; omega
      rw [hcnt]
      norm_num
      rw [parse_fields_loop_some]
      have hany : rest.any hasBaseAttr = false :=
        (any_hasBase_false_iff rest).mpr hrest
      rw [hany]
      simp only [Bool.false_eq_true, reduceIte]
      have hfil : rest.filter (fun f => !hasBaseAttr f) = rest := by
        rw [List.filter_eq_self]
        intro a ha
        have : hasBaseAttr a = false := by
          rcases (any_eq_false_iff_countP_eq_zero hasBaseAttr rest).symm with hiff
          have := (any_hasBase_false_iff rest).mpr hrest
          rw [List.any_eq_false] at this
          simpa using this a ha
        simp [this]
      simp [List.filter_cons, hb, firstBaseField?, List.find?_cons, hfil]

/-- The field loop with two or more base markers: classification fails
with the duplicate-base error naming the first-designated field. -/
theorem parse_fields_loop_none_err (fs : List NamedField) (acc : List String) (f0 : NamedField)
    (h1 : firstBaseField? fs = some f0) (h2 : 2 ≤ baseAttrCount fs) :
    parse_fields_loop fs acc Option.none = Except.error (dupBaseMsg f0.name) := by
  induction fs generalizing acc with
  | nil => simp [firstBaseField?] at h1
  | cons f rest ih =>
    rw [parse_fields_loop, parse_fields_attr_loop_none]
    cases hb : hasBaseAttr f with
    | false =>
      have h0 : f.attributes.countP isBaseAttr = 0 := (hasBaseAttr_false_iff f).mp hb
      simp only [h0, reduceIte]
      simp only [Bool.false_eq_true, reduceIte]
      have hfind : firstBaseField? rest = some f0 := by
        rw [firstBaseField?] at h1 ⊢
        rwa [List.find?_cons_of_neg _ (by simp [hb])] at h1
      have hcr : 2 ≤ baseAttrCount rest := by
        rw [baseAttrCount_cons] at h2; omega
      exact ih (acc ++ [f.name]) hfind hcr
    | true =>
      have hf0 : f0 = f := by
        rw [firstBaseField?] at h1
        rw [List.find?_cons_of_pos _ hb] at h1
        exact (Option.some_inj.mp h1).symm
      rw [hf0]
      have h1' : f.attributes.countP isBaseAttr ≠ 0 := by
        intro h0
        rw [← hasBaseAttr_false_iff] at h0
        rw [hb] at h0
        exact Bool.noConfusion h0
      by_cases hc2 : 2 ≤ f.attributes.countP isBaseAttr
      · have hne0 : ¬(f.attributes.countP isBaseAttr = 0) := by omega
        have hne1 : ¬(f.attributes.countP isBaseAttr = 1) := by omega
        simp only [hne0, hne1, if_false]
      · have hcnt : f.attributes.countP isBaseAttr = 1 := by omega
        rw [hcnt]
        norm_num
        rw [parse_fields_loop_some]
        have hrest : baseAttrCount rest ≠ 0 := by
          rw [baseAttrCount_cons] at h2; omega
        have hany : rest.any hasBaseAttr = true := by
          cases ha : rest.any hasBaseAttr with
          | true => rfl
          | false => exact absurd ((any_hasBase_false_iff rest).mp ha) hrest
        rw [hany]
        simp

/-- `parse_fields` on named fields with at most one base marker:
classification succeeds with the plain fields in source order and the
first (sole) base-marked field recorded. -/
theorem parse_fields_named_ok (cls : Struct) (fs : List NamedField)
    (hf : cls.fields = StructFields.named fs) (h : baseAttrCount fs ≤ 1) :
    parse_fields cls = Except.ok
      { all_field_names := (fs.filter (fun f => !hasBaseAttr f)).map NamedField.name,
        base_field := (firstBaseField? fs).map (fun f => { name := f.name, ty := f.ty }) } := by
  unfold parse_fields
  rw [hf]
  simp only []
  rw [parse_fields_loop_none_ok fs [] h]
  simp

/-- `parse_fields` on named fields with two or more base markers fails,
naming the first-designated field. -/
theorem parse_fields_named_err (cls : Struct) (fs : List NamedField) (f0 : NamedField)
    (hf : cls.fields = StructFields.named fs)
    (h1 : firstBaseField? fs = some f0) (h2 : 2 ≤ baseAttrCount fs) :
    parse_fields cls = Except.error (dupBaseMsg f0.name) := by
  unfold parse_fields
  rw [hf]
  simp only []
  exact parse_fields_loop_none_err fs [] f0 h1 h2

/-- `transform` on a struct whose attribute and field parses succeed: the
emitted stream assembled from the emitters, unless property emission
panics. -/
theorem transform_struct_eq (cls : Struct) (cfg : ClassAttributes) (flds : Fields)
    (hcfg : parse_struct_attributes cls = Except.ok cfg)
    (hf : parse_fields cls = Except.ok flds) :
    transform (MacroInput.parsed (Declaration.struct cls)) =
      match make_godot_properties_impl cls.name cfg.properties with
      | Option.none => Option.none
      | some pimpl => some (Except.ok
          { class_name := cls.name
            base_ty := cfg.base_ty
            godot_init_impl :=
              if cfg.has_generated_init then some (make_godot_init_impl cls.name flds)
              else Option.none
            godot_properties_impl := pimpl
            deref_impl := make_deref_impl cls.name flds
            plugin := { class_name := cls.name, base_class_name := cfg.base_ty,
                        generated_create_fn :=
                          if cfg.has_generated_init then some (create_fn_ref cls.name)
                          else Option.none,
                        free_fn := free_fn_ref cls.name }
            inherits_macro := "inherits_transitive_" ++ cfg.base_ty }) := by
  unfold transform
  simp only []
  rw [hcfg, hf]

/-- The shape of every successful `transform` on a struct, recovered from
its result. -/
theorem transform_struct_ok_inv (cls : Struct) (ts : TokenStreamOut)
    (h : transform (MacroInput.parsed (Declaration.struct cls)) = some (Except.ok ts)) :
    ∃ cfg flds, parse_struct_attributes cls = Except.ok cfg ∧
      parse_fields cls = Except.ok flds ∧
      make_godot_properties_impl cls.name cfg.properties = some ts.godot_properties_impl ∧
      ts = { class_name := cls.name
             base_ty := cfg.base_ty
             godot_init_impl :=
               if cfg.has_generated_init then some (make_godot_init_impl cls.name flds)
               else Option.none
             godot_properties_impl := ts.godot_properties_impl
             deref_impl := make_deref_impl cls.name flds
             plugin := { class_name := cls.name, base_class_name := cfg.base_ty,
                         generated_create_fn :=
                           if cfg.has_generated_init then some (create_fn_ref cls.name)
                           else Option.none,
                         free_fn := free_fn_ref cls.name }
             inherits_macro := "inherits_transitive_" ++ cfg.base_ty } := by
  revert h
  unfold transform
  simp only []
  cases hcfg : parse_struct_attributes cls with
  | error e => intro h; simp at h
  | ok cfg =>
    cases hf : parse_fields cls with
    | error e => intro h; simp at h
    | ok flds =>
      cases hp : make_godot_properties_impl cls.name cfg.properties with
      | none =>
        intro h
        simp only [] at h
        rw [hp] at h
        simp at h
      | some pimpl =>
        intro h
        simp only [] at h
        rw [hp] at h
        simp only [Option.some_inj, Except.ok.injEq] at h
        subst h
        exact ⟨cfg, flds, rfl, rfl, hp, rfl⟩

/-- A successful `Literal::from_str` hands the text back unchanged. -/
theorem literalFromStr_ok {s t : String} (h : literalFromStr s = some t) : t = s := by
  unfold literalFromStr at h
  by_cases hl : isLiteralText s = true
  · rw [if_pos hl] at h
    exact (Option.some_inj.mp h).symm
  · rw [if_neg hl] at h
    exact Option.noConfusion h

/-- A registration call that did not panic is the expected call: the
descriptor strings verbatim around the fixed placeholder variant type. -/
theorem make_property_call_ok (cn : String) (p : PropertyInfoAttribute)
    (c : PropRegistrationCall) (h : make_property_call cn p = some c) :
    c = expectedCall cn p := by
  unfold make_property_call at h
  cases h1 : literalFromStr p.name with
  | none => rw [h1] at h; simp at h
  | some n =>
    cases h2 : literalFromStr p.getter with
    | none => rw [h1, h2] at h; simp at h
    | some g =>
      cases h3 : literalFromStr p.setter with
      | none => rw [h1, h2, h3] at h; simp at h
      | some s_ =>
        rw [h1, h2, h3] at h
        simp at h
        rw [← h, literalFromStr_ok h1, literalFromStr_ok h2, literalFromStr_ok h3]
        rfl

/-- On a descriptor of literal-token text the per-descriptor emission
never panics. -/
theorem make_property_call_litWF (cn : String) (p : PropertyInfoAttribute)
    (h : p.litWF = true) :
    make_property_call cn p = some (expectedCall cn p) := by
  rw [PropertyInfoAttribute.litWF, Bool.and_eq_true, Bool.and_eq_true] at h
  obtain ⟨⟨hn, hg⟩, hs⟩ := h
  unfold make_property_call literalFromStr
  rw [if_pos hn, if_pos hg, if_pos hs]
  rfl

/-- A collected call list that did not panic is the pointwise expected
list. -/
theorem collectCalls_ok (cn : String) (props : List PropertyInfoAttribute)
    (calls : List PropRegistrationCall)
    (h : collectCalls (make_property_call cn) props = some calls) :
    calls = props.map (expectedCall cn) := by
  induction props generalizing calls with
  | nil =>
    rw [collectCalls] at h
    simp at h
    simp [h]
  | cons p rest ih =>
    rw [collectCalls] at h
    cases h1 : make_property_call cn p with
    | none => rw [h1] at h; simp at h
    | some c =>
      cases h2 : collectCalls (make_property_call cn) rest with
      | none => rw [h1, h2] at h; simp at h
      | some cs =>
        rw [h1, h2] at h
        simp at h
        rw [← h, List.map_cons, make_property_call_ok cn p c h1, ih cs h2]

/-- Collection never panics on descriptors of literal-token text. -/
theorem collectCalls_litWF (cn : String) (props : List PropertyInfoAttribute)
    (h : ∀ p ∈ props, p.litWF = true) :
    collectCalls (make_property_call cn) props = some (props.map (expectedCall cn)) := by
  induction props with
  | nil => rfl
  | cons p rest ih =>
    rw [collectCalls]
    rw [make_property_call_litWF cn p (h p (List.mem_cons_self p rest))]
    rw [ih (fun q hq => h q (List.mem_cons_of_mem p hq))]
    rfl

/-- A properties impl that did not panic carries exactly one expected call
per descriptor, in order. -/
theorem make_godot_properties_impl_ok (cn : String) (props : List PropertyInfoAttribute)
    (impl : GodotPropertiesImpl) (h : make_godot_properties_impl cn props = some impl) :
    impl = { class_name := cn, calls := props.map (expectedCall cn) } := by
  unfold make_godot_properties_impl at h
  cases hc : collectCalls (make_property_call cn) props with
  | none => rw [hc] at h; simp at h
  | some cs =>
    rw [hc] at h
    simp at h
    rw [← h, collectCalls_ok cn props cs hc]

/-- The properties emitter never panics on descriptors of literal-token
text. -/
theorem make_godot_properties_impl_litWF (cn : String) (props : List PropertyInfoAttribute)
    (h : ∀ p ∈ props, p.litWF = true) :
    make_godot_properties_impl cn props =
      some { class_name := cn, calls := props.map (expectedCall cn) } := by
  unfold make_godot_properties_impl
  rw [collectCalls_litWF cn props h]
  rfl

/-- Erasing a key keeps the map literal-wise well formed. -/
theorem eraseKey_litWF {m : KvMap} {k : String} (hm : m.litWF = true) :
    (m.eraseKey k).litWF = true := by
  rw [KvMap.litWF, List.all_eq_true] at hm ⊢
  intro p hp
  exact hm p (mem_eraseKey hp)

/-- A literal looked up in a well formed map is literal-token text. -/
theorem lookupLast_litWF {m : KvMap} {k s : String} (hm : m.litWF = true)
    (h : m.lookupLast k = some (KvValue.lit s)) : isLiteralText s = true := by
  have hmem := lookupLast_mem h
  rw [KvMap.litWF, List.all_eq_true] at hm
  have := hm _ hmem
  simpa [KvValue.litWF] using this

/-- A descriptor parsed from a well formed tag map has literal-token
strings, so emission cannot panic on it. -/
theorem propertyTagSpec_litWF {m : KvMap} {p : PropertyInfoAttribute}
    (hm : m.litWF = true) (h : propertyTagSpec m = Except.ok p) :
    p.litWF = true := by
  unfold propertyTagSpec at h
  simp only [KvMap.remove] at h
  cases h1 : m.lookupLast "name" with
  | none => rw [h1] at h; simp at h
  | some v1 =>
    rw [h1] at h
    cases v1 with
    | none => simp at h
    | ident i => simp at h
    | lit s1 =>
      have hn : isLiteralText s1 = true := lookupLast_litWF hm h1
      have hm1 : (m.eraseKey "name").litWF = true := eraseKey_litWF hm
      simp only [] at h
      cases h2 : (m.eraseKey "name").lookupLast "variant_type" with
      | none => rw [h2] at h; simp at h
      | some v2 =>
        rw [h2] at h
        cases v2 with
        | none => simp at h
        | ident i => simp at h
        | lit s2 =>
          have hm2 : ((m.eraseKey "name").eraseKey "variant_type").litWF = true :=
            eraseKey_litWF hm1
          simp only [] at h
          cases h3 : ((m.eraseKey "name").eraseKey "variant_type").lookupLast "getter" with
          | none => rw [h3] at h; simp at h
          | some v3 =>
            rw [h3] at h
            cases v3 with
            | none => simp at h
            | ident i => simp at h
            | lit s3 =>
              have hg : isLiteralText s3 = true := lookupLast_litWF hm2 h3
              have hm3 : (((m.eraseKey "name").eraseKey "variant_type").eraseKey
                  "getter").litWF = true := eraseKey_litWF hm2
              simp only [] at h
              cases h4 : (((m.eraseKey "name").eraseKey "variant_type").eraseKey
                  "getter").lookupLast "setter" with
              | none => rw [h4] at h; simp at h
              | some v4 =>
                rw [h4] at h
                cases v4 with
                | none => simp at h
                | ident i => simp at h
                | lit s4 =>
                  have hs : isLiteralText s4 = true := lookupLast_litWF hm3 h4
                  simp only [] at h
                  cases he : ensure_kv_empty ((((m.eraseKey "name").eraseKey
                      "variant_type").eraseKey "getter").eraseKey "setter") with
                  | error e => rw [he] at h; simp at h
                  | ok u =>
                    rw [he] at h
                    simp at h
                    rw [← h]
                    simp [PropertyInfoAttribute.litWF, hn, hg, hs]

/-- All descriptors parsed from well formed tags are well formed. -/
theorem propertyTagsParse_litWF (l : List Attribute) (ps : List PropertyInfoAttribute)
    (hl : ∀ a ∈ l, a.litWF = true) (h : propertyTagsParse l = Except.ok ps) :
    ∀ p ∈ ps, p.litWF = true := by
  induction l generalizing ps with
  | nil =>
    rw [propertyTagsParse] at h
    simp at h
    subst h
    intro p hp
    exact absurd hp (List.not_mem_nil p)
  | cons a rest ih =>
    rw [propertyTagsParse] at h
    cases h1 : propertyTagSpec a.kv with
    | error e => rw [h1] at h; simp [Bind.bind, Except.bind] at h
    | ok p0 =>
      rw [h1] at h
      cases h2 : propertyTagsParse rest with
      | error e => rw [h2] at h; simp [Bind.bind, Except.bind] at h
      | ok ps0 =>
        rw [h2] at h
        simp [Bind.bind, Except.bind, pure, Except.pure] at h
        subst h
        intro p hp
        rcases List.mem_cons.mp hp with hp0 | hps
        · subst hp0
          exact propertyTagSpec_litWF (hl a (List.mem_cons_self a rest)) h1
        · exact ih ps0 (fun b hb => hl b (List.mem_cons_of_mem a hb)) h2 p hps

/-- A successful parse has one descriptor per tag. -/
theorem propertyTagsParse_ok_length (l : List Attribute) (ps : List PropertyInfoAttribute)
    (h : propertyTagsParse l = Except.ok ps) : ps.length = l.length := by
  induction l generalizing ps with
  | nil => rw [propertyTagsParse] at h; simp at h; simp [h]
  | cons a rest ih =>
    rw [propertyTagsParse] at h
    cases h1 : propertyTagSpec a.kv with
    | error e => rw [h1] at h; simp [Bind.bind, Except.bind] at h
    | ok p0 =>
      rw [h1] at h
      cases h2 : propertyTagsParse rest with
      | error e => rw [h2] at h; simp [Bind.bind, Except.bind] at h
      | ok ps0 =>
        rw [h2] at h
        simp [Bind.bind, Except.bind, pure, Except.pure] at h
        subst h
        simp [ih ps0 h2]

/-- A successful parse is pointwise the per-tag contract, in tag order. -/
theorem propertyTagsParse_ok_get (l : List Attribute) (ps : List PropertyInfoAttribute)
    (h : propertyTagsParse l = Except.ok ps) :
    ∀ i (h1 : i < l.length) (h2 : i < ps.length),
      propertyTagSpec ((l.get ⟨i, h1⟩).kv) = Except.ok (ps.get ⟨i, h2⟩) := by
  induction l generalizing ps with
  | nil => intro i h1; exact absurd h1 (Nat.not_lt_zero i)
  | cons a rest ih =>
    rw [propertyTagsParse] at h
    cases hs : propertyTagSpec a.kv with
    | error e => rw [hs] at h; simp [Bind.bind, Except.bind] at h
    | ok p0 =>
      rw [hs] at h
      cases ht : propertyTagsParse rest with
      | error e => rw [ht] at h; simp [Bind.bind, Except.bind] at h
      | ok ps0 =>
        rw [ht] at h
        simp [Bind.bind, Except.bind, pure, Except.pure] at h
        subst h
        intro i hi1 hi2
        cases i with
        | zero => simpa using hs
        | succ j =>
          simp only [List.get_cons_succ]
          exact ih ps0 ht j (Nat.lt_of_succ_lt_succ hi1) (Nat.lt_of_succ_lt_succ hi2)

/-- The descriptors of a parsed configuration are exactly what
`parse_property_attrs` hands back. -/
theorem parse_struct_attributes_props (cls : Struct) (cfg : ClassAttributes)
    (h : parse_struct_attributes cls = Except.ok cfg) :
    parse_property_attrs cls.attributes = Except.ok cfg.properties := by
  cases hc : parse_class_attr cls.attributes with
  | error e => rw [psa_err cls e hc] at h; exact Except.noConfusion h
  | ok attr? =>
    cases attr? with
    | none =>
      rw [psa_none cls hc] at h
      cases hp : parse_property_attrs cls.attributes with
      | error e => rw [hp] at h; simp at h
      | ok ps =>
        rw [hp] at h
        simp at h
        rw [← h]
    | some m =>
      rw [psa_some cls m hc] at h
      cases hcs : configSpec m with
      | error e => rw [hcs] at h; simp at h
      | ok v =>
        rcases v with ⟨base, hgi⟩
        rw [hcs] at h
        cases hp : parse_property_attrs cls.attributes with
        | error e => rw [hp] at h; simp at h
        | ok ps =>
          rw [hp] at h
          simp at h
          rw [← h]

/-- C3: for every struct declaration in which more than one field carries
the base marker, field classification fails with the duplicate-base-field
error naming the field designated first; with at most one base-marked
field, classification succeeds, records that field (if any) as the base
field and excludes it from the plain-field sequence, which keeps source
order. -/
theorem claim_C3 (cls : Struct) (fs : List NamedField)
    (hf : cls.fields = StructFields.named fs) :
    (∀ f0, firstBaseField? fs = some f0 → 2 ≤ baseAttrCount fs →
      parse_fields cls = Except.error (dupBaseMsg f0.name)) ∧
    (baseAttrCount fs ≤ 1 →
      parse_fields cls = Except.ok
        { all_field_names := (fs.filter (fun f => !hasBaseAttr f)).map NamedField.name,
          base_field := (firstBaseField? fs).map (fun f => { name := f.name, ty := f.ty }) }) :=
  ⟨fun f0 h1 h2 => parse_fields_named_err cls fs f0 hf h1 h2,
   fun h => parse_fields_named_ok cls fs hf h⟩

/-- Witness for C3 at two concrete declarations. -/
theorem claim_C3_witness :
    parse_fields exDupStruct = Except.error (dupBaseMsg "a") ∧
    parse_fields exInitStruct = Except.ok
      { all_field_names := ["x", "y"], base_field := Option.none } := by
  constructor
  · exact (claim_C3 exDupStruct exDupFields rfl).1
      { name := "a", ty := "T", attributes := [{ path := ["base"], kv := [] }] }
      (by decide) (by decide)
  · exact (claim_C3 exInitStruct
      [{ name := "x", ty := "i64", attributes := [] },
       { name := "y", ty := "i64", attributes := [] }] rfl).2 (by decide)

/-- C8: expansion fails with the "Not a valid struct" error for every
annotated declaration that is not a struct; tuple-style (positional)
fields are a fatal error in classification; a struct with no fields (unit
struct) is accepted and yields the empty field classification. -/
theorem claim_C8 :
    transform (MacroInput.parsed Declaration.other) =
      some (Except.error "Not a valid struct") ∧
    (∀ (cls : Struct) (n : Nat), cls.fields = StructFields.tuple n →
      parse_fields cls = Except.error "#[derive(GodotClass)] not supported for tuple structs") ∧
    (∀ cls : Struct, cls.fields = StructFields.unit →
      parse_fields cls = Except.ok { all_field_names := [], base_field := Option.none }) := by
  refine ⟨rfl, ?_, ?_⟩
  · intro cls n h
    unfold parse_fields
    rw [h]
  · intro cls h
    unfold parse_fields
    rw [h]
    rfl

/-- C4: for every declaration with the initializer flag set that expands
successfully, the emitted constructor assigns the plain fields in exactly
the classifier's source order (default value each), and the base-field
assignment, when a base field exists, comes after all plain-field
assignments regardless of the base field's position among the declared
fields. -/
theorem claim_C4 (cls : Struct) (fs : List NamedField) (cfg : ClassAttributes)
    (ts : TokenStreamOut)
    (hfs : cls.fields = StructFields.named fs)
    (hcount : baseAttrCount fs ≤ 1)
    (hcfg : parse_struct_attributes cls = Except.ok cfg)
    (hinit : cfg.has_generated_init = true)
    (ht : transform (MacroInput.parsed (Declaration.struct cls)) = some (Except.ok ts)) :
    ts.godot_init_impl = some
      { class_name := cls.name
        assignments :=
          ((fs.filter (fun f => !hasBaseAttr f)).map (fun f => FieldInit.defaultInit f.name)) ++
          (((firstBaseField? fs).map (fun f => FieldInit.baseInit f.name)).toList) } := by
  have hf := parse_fields_named_ok cls fs hfs hcount
  rw [transform_struct_eq cls cfg _ hcfg hf] at ht
  cases hp : make_godot_properties_impl cls.name cfg.properties with
  | none => rw [hp] at ht; exact Option.noConfusion ht
  | some pimpl =>
    rw [hp] at ht
    simp only [Option.some_inj, Except.ok.injEq] at ht
    rw [← ht]
    simp only [hinit, if_true]
    unfold make_godot_init_impl
    simp only [Option.some_inj]
    cases hfb : firstBaseField? fs with
    | none => simp [List.map_map]
    | some f0 => simp [List.map_map]

/-- C7: a declaration with the initializer flag set and no base-marked
field expands to a constructor that default-initializes every field and
contains no base-handle assignment; a declaration with a base-marked field
and the initializer flag not set expands with no constructor but with the
read and write delegation implementations targeting the base field. -/
theorem claim_C7 (cls : Struct) (fs : List NamedField) (cfg : ClassAttributes)
    (ts : TokenStreamOut)
    (hfs : cls.fields = StructFields.named fs)
    (hcfg : parse_struct_attributes cls = Except.ok cfg)
    (ht : transform (MacroInput.parsed (Declaration.struct cls)) = some (Except.ok ts)) :
    ((∀ f ∈ fs, hasBaseAttr f = false) → cfg.has_generated_init = true →
      ts.godot_init_impl = some
        { class_name := cls.name
          assignments := fs.map (fun f => FieldInit.defaultInit f.name) } ∧
      ts.deref_impl = Option.none) ∧
    (∀ f0, firstBaseField? fs = some f0 → baseAttrCount fs ≤ 1 →
      cfg.has_generated_init = false →
      ts.godot_init_impl = Option.none ∧
      ts.deref_impl = some { class_name := cls.name, deref_target := f0.name,
                             deref_mut_target := f0.name }) := by
  constructor
  · intro hnb hinit
    have hcount : baseAttrCount fs ≤ 1 := by
      have h0 : baseAttrCount fs = 0 := (any_hasBase_false_iff fs).mp (by
        rw [List.any_eq_false]
        intro f hf0
        simp [hnb f hf0])
      omega
    have hf := parse_fields_named_ok cls fs hfs hcount
    have hfil : fs.filter (fun f => !hasBaseAttr f) = fs := by
      rw [List.filter_eq_self]
      intro f hf0
      simp [hnb f hf0]
    have hfind : firstBaseField? fs = Option.none := by
      rw [firstBaseField?, List.find?_eq_none]
      intro f hf0
      simp [hnb f hf0]
    rw [hfil, hfind] at hf
    rw [transform_struct_eq cls cfg _ hcfg hf] at ht
    cases hp : make_godot_properties_impl cls.name cfg.properties with
    | none => rw [hp] at ht; exact Option.noConfusion ht
    | some pimpl =>
      rw [hp] at ht
      simp only [Option.some_inj, Except.ok.injEq] at ht
      rw [← ht]
      constructor
      · simp [hinit, make_godot_init_impl]
      · simp [make_deref_impl]
  · intro f0 hfind hcount hinit
    have hf := parse_fields_named_ok cls fs hfs hcount
    rw [hfind] at hf
    rw [transform_struct_eq cls cfg _ hcfg hf] at ht
    cases hp : make_godot_properties_impl cls.name cfg.properties with
    | none => rw [hp] at ht; exact Option.noConfusion ht
    | some pimpl =>
      rw [hp] at ht
      simp only [Option.some_inj, Except.ok.injEq] at ht
      rw [← ht]
      constructor
      · simp [hinit]
      · simp [make_deref_impl]



/-- Witness for C4 at the spec's Scenario A declaration and at a
declaration whose base field comes first in the source: its assignment is
still emitted last. -/
theorem claim_C4_witness :
    (∃ ts, transform (MacroInput.parsed (Declaration.struct exStructA)) =
        some (Except.ok ts) ∧
      ts.godot_init_impl = some
        { class_name := "MyClass"
          assignments := [FieldInit.defaultInit "speed", FieldInit.baseInit "body"] }) ∧
    (∃ ts, transform (MacroInput.parsed (Declaration.struct exBaseFirstStruct)) =
        some (Except.ok ts) ∧
      ts.godot_init_impl = some
        { class_name := "First"
          assignments := [FieldInit.defaultInit "x", FieldInit.baseInit "b"] }) := by
  constructor
  · refine ⟨_, rfl, ?_⟩
    exact claim_C4 exStructA exFieldsA _ _ rfl (by decide) rfl rfl rfl
  · refine ⟨_, rfl, ?_⟩
    exact claim_C4 exBaseFirstStruct exBaseFirstFields _ _ rfl (by decide) rfl rfl rfl

/-- Witness for C7 at two concrete declarations. -/
theorem claim_C7_witness :
    (∃ ts, transform (MacroInput.parsed (Declaration.struct exInitStruct)) =
        some (Except.ok ts) ∧
      ts.godot_init_impl = some
        { class_name := "Plain"
          assignments := [FieldInit.defaultInit "x", FieldInit.defaultInit "y"] } ∧
      ts.deref_impl = Option.none) ∧
    (∃ ts, transform (MacroInput.parsed (Declaration.struct exBaseNoInitStruct)) =
        some (Except.ok ts) ∧
      ts.godot_init_impl = Option.none ∧
      ts.deref_impl = some
        { class_name := "Held", deref_target := "node", deref_mut_target := "node" }) := by
  constructor
  · refine ⟨_, rfl, ?_, ?_⟩
    · exact ((claim_C7 exInitStruct
        [{ name := "x", ty := "i64", attributes := [] },
         { name := "y", ty := "i64", attributes := [] }] _ _ rfl rfl rfl).1
        (by decide) rfl).1
    · exact ((claim_C7 exInitStruct
        [{ name := "x", ty := "i64", attributes := [] },
         { name := "y", ty := "i64", attributes := [] }] _ _ rfl rfl rfl).1
        (by decide) rfl).2
  · refine ⟨_, rfl, ?_, ?_⟩
    · exact ((claim_C7 exBaseNoInitStruct
        [{ name := "node", ty := "Base", attributes := [{ path := ["base"], kv := [] }] },
         { name := "hp", ty := "u32", attributes := [] }] _ _ rfl rfl rfl).2
        { name := "node", ty := "Base", attributes := [{ path := ["base"], kv := [] }] }
        (by decide) (by decide) rfl).1
    · exact ((claim_C7 exBaseNoInitStruct
        [{ name := "node", ty := "Base", attributes := [{ path := ["base"], kv := [] }] },
         { name := "hp", ty := "u32", attributes := [] }] _ _ rfl rfl rfl).2
        { name := "node", ty := "Base", attributes := [{ path := ["base"], kv := [] }] }
        (by decide) (by decide) rfl).2

/-- C5: for every property-descriptor tag, parsing refines the spec's
section 4.2 contract exactly: the four required keys are extracted in the
priority order name, variant_type, getter, setter; the first missing key
fails with the message naming that key, a present key whose value is not a
plain string literal fails with the message naming that key, a leftover
key after the four is fatal, and otherwise parsing succeeds with the four
values. -/
theorem claim_C5 (m : KvMap) :
    parse_property_attrs [{ path := ["property"], kv := m }] =
      (propertyTagSpec m).map (fun p => [p]) := by
  rw [parse_property_attrs_eq]
  have hpath : path_is_single ["property"] "property" = true := rfl
  simp only [List.filter_cons, List.filter_nil, hpath, if_true]
  rw [propertyTagsParse]
  cases hs : propertyTagSpec m with
  | error e => simp [Bind.bind, Except.bind, Except.map]
  | ok p =>
    rw [propertyTagsParse]
    simp [Bind.bind, Except.bind, Except.map, pure, Except.pure]

/-- C6: for a declaration whose n property tags all parse, emission yields
exactly n registration calls — one per descriptor, in tag order (the
descriptor list is pointwise the per-tag parse of the filtered tag list) —
each call carrying its own descriptor's name, getter and setter
verbatim. -/
theorem claim_C6 (attrs : List Attribute) (props : List PropertyInfoAttribute)
    (cn : String) (impl : GodotPropertiesImpl)
    (hp : parse_property_attrs attrs = Except.ok props)
    (hm : make_godot_properties_impl cn props = some impl) :
    impl.calls.length = props.length ∧
    props.length = (attrs.filter (fun a => path_is_single a.path "property")).length ∧
    (∀ i (h1 : i < (attrs.filter (fun a => path_is_single a.path "property")).length)
       (h2 : i < props.length),
      propertyTagSpec (((attrs.filter (fun a => path_is_single a.path "property")).get
          ⟨i, h1⟩).kv) = Except.ok (props.get ⟨i, h2⟩)) ∧
    impl.calls = props.map (expectedCall cn) := by
  rw [parse_property_attrs_eq] at hp
  have hlen := propertyTagsParse_ok_length _ _ hp
  have hget := propertyTagsParse_ok_get _ _ hp
  have himpl := make_godot_properties_impl_ok cn props impl hm
  refine ⟨?_, hlen, ?_, ?_⟩
  · rw [himpl]
    simp
  · intro i h1 h2
    exact hget i h1 h2
  · rw [himpl]

/-- Witness for C6 at the Scenario A attributes. -/
theorem claim_C6_witness : ∃ props impl,
    parse_property_attrs exStructA.attributes = Except.ok props ∧
    make_godot_properties_impl "MyClass" props = some impl ∧
    impl.calls = props.map (expectedCall "MyClass") ∧
    impl.calls.length = props.length := by
  refine ⟨_, _, rfl, rfl, ?_, ?_⟩
  · exact (claim_C6 exStructA.attributes _ "MyClass" _ rfl rfl).2.2.2
  · exact (claim_C6 exStructA.attributes _ "MyClass" _ rfl rfl).1

/-- The per-descriptor emission never reads the descriptor's variant_type
field. -/
theorem make_property_call_congr (cn : String) (p q : PropertyInfoAttribute)
    (h : stripVariantType p = stripVariantType q) :
    make_property_call cn p = make_property_call cn q := by
  unfold stripVariantType at h
  simp only [Prod.mk.injEq] at h
  obtain ⟨h1, h2, h3⟩ := h
  unfold make_property_call
  rw [h1, h2, h3]

/-- Collection is invariant under changes of the variant_type fields. -/
theorem collectCalls_congr (cn : String) (ps ps' : List PropertyInfoAttribute)
    (h : ps.map stripVariantType = ps'.map stripVariantType) :
    collectCalls (make_property_call cn) ps = collectCalls (make_property_call cn) ps' := by
  induction ps generalizing ps' with
  | nil =>
    cases ps' with
    | nil => rfl
    | cons q qs => simp at h
  | cons p ps ih =>
    cases ps' with
    | nil => simp at h
    | cons q qs =>
      simp only [List.map_cons, List.cons.injEq] at h
      obtain ⟨h1, h2⟩ := h
      rw [collectCalls, collectCalls]
      rw [make_property_call_congr cn p q h1, ih qs h2]

/-- C1: every emitted property-registration call uses the fixed placeholder
variant type, the emitted properties impl does not depend on the parsed
variant_type values at all, and the variant_type value is nevertheless
parsed and stored in the descriptor. -/
theorem claim_C1 :
    (∀ cls ts, transform (MacroInput.parsed (Declaration.struct cls)) = some (Except.ok ts) →
      ∀ call ∈ ts.godot_properties_impl.calls, call.variant_type = variantTypeInt) ∧
    (∀ cn (ps ps' : List PropertyInfoAttribute),
      ps.map stripVariantType = ps'.map stripVariantType →
      make_godot_properties_impl cn ps = make_godot_properties_impl cn ps') ∧
    (∀ n v g s_, parse_property_attrs
        [{ path := ["property"],
           kv := [("name", KvValue.lit n), ("variant_type", KvValue.lit v),
                  ("getter", KvValue.lit g), ("setter", KvValue.lit s_)] }] =
      Except.ok [{ name := n, getter := g, setter := s_, variant_type := v }]) := by
  refine ⟨?_, ?_, ?_⟩
  · intro cls ts ht call hcall
    obtain ⟨cfg, flds, hcfg, hf, hpim, hts⟩ := transform_struct_ok_inv cls ts ht
    have himpl := make_godot_properties_impl_ok cls.name cfg.properties _ hpim
    rw [himpl] at hcall
    simp only [List.mem_map] at hcall
    obtain ⟨p, hmem, hc⟩ := hcall
    rw [← hc]
    rfl
  · intro cn ps ps' h
    unfold make_godot_properties_impl
    rw [collectCalls_congr cn ps ps' h]
  · intro n v g s_
    rfl



/-- C2: the top-level expansion never panics on any input whose literal
values are literal-token text (which the compiler's lexer guarantees):
every internal failure becomes an emitted compile-error output, so
`translate` is total. -/
theorem claim_C2 (input : MacroInput) (h : MacroInput.litWF input = true) :
    ∃ out, translate input = some out := by
  unfold translate
  cases input with
  | parseError e => exact ⟨MacroOutput.compileError e, rfl⟩
  | parsed d =>
    cases d with
    | other => exact ⟨MacroOutput.compileError "Not a valid struct", rfl⟩
    | struct cls =>
      have hwf : ∀ a ∈ cls.attributes, a.litWF = true := by
        rw [MacroInput.litWF] at h
        exact fun a ha => List.all_eq_true.mp h a ha
      cases hcfg : parse_struct_attributes cls with
      | error e =>
        have htr : transform (MacroInput.parsed (Declaration.struct cls)) =
            some (Except.error e) := by
          unfold transform
          simp only []
          rw [hcfg]
        rw [htr]
        exact ⟨MacroOutput.compileError e, rfl⟩
      | ok cfg =>
        cases hf : parse_fields cls with
        | error e =>
          have htr : transform (MacroInput.parsed (Declaration.struct cls)) =
              some (Except.error e) := by
            unfold transform
            simp only []
            rw [hcfg, hf]
          rw [htr]
          exact ⟨MacroOutput.compileError e, rfl⟩
        | ok flds =>
          have hprops : ∀ p ∈ cfg.properties, p.litWF = true := by
            have hpp := parse_struct_attributes_props cls cfg hcfg
            rw [parse_property_attrs_eq] at hpp
            refine propertyTagsParse_litWF _ _ ?_ hpp
            intro a ha
            exact hwf a (List.mem_filter.mp ha).1
          have hmk := make_godot_properties_impl_litWF cls.name cfg.properties hprops
          have htr := transform_struct_eq cls cfg flds hcfg hf
          rw [hmk] at htr
          rw [htr]
          exact ⟨_, rfl⟩

/-- Witness for C2 at the Scenario A declaration. -/
theorem claim_C2_witness :
    MacroInput.litWF (MacroInput.parsed (Declaration.struct exStructA)) = true ∧
    ∃ out, translate (MacroInput.parsed (Declaration.struct exStructA)) = some out :=
  ⟨by decide, claim_C2 (MacroInput.parsed (Declaration.struct exStructA)) (by decide)⟩

/-- C9: configuration-tag parsing fails exactly when a second
configuration tag appears (with the only-one-allowed message), or the
base value is not a bare identifier, or the init key carries a value, or
a key is left over after the recognized keys are removed; in all other
cases, the tag being absent included, it succeeds. -/
theorem claim_C9 (cls : Struct) (ps : List PropertyInfoAttribute)
    (hp : parse_property_attrs cls.attributes = Except.ok ps) :
    ((∃ e, parse_struct_attributes cls = Except.error e) ↔
      (2 ≤ (classAttrs cls.attributes).length ∨
       ∃ a, classAttrs cls.attributes = [a] ∧ configTagFails a.kv = true)) ∧
    (2 ≤ (classAttrs cls.attributes).length →
      parse_struct_attributes cls = Except.error onlyOneClassMsg) := by
  have hca := parse_class_attr_eq cls.attributes
  have hdup : 2 ≤ (classAttrs cls.attributes).length →
      parse_struct_attributes cls = Except.error onlyOneClassMsg := by
    intro h2
    refine psa_err cls _ ?_
    rw [hca, if_pos h2]
  refine ⟨?_, hdup⟩
  rcases hc : classAttrs cls.attributes with _ | ⟨a, rest⟩
  · rw [hc] at hca
    simp only [List.length_nil, List.head?_nil, Option.map_none] at hca
    have h0 : parse_class_attr cls.attributes = Except.ok Option.none := by
      rw [hca]
      norm_num
    have hok := psa_none cls h0
    rw [hp] at hok
    constructor
    · rintro ⟨e, he⟩
      rw [hok] at he
      exact Except.noConfusion he
    · rintro (h2 | ⟨a, ha, _⟩)
      · simp at h2
      · exact List.noConfusion ha
  · cases rest with
    | nil =>
      rw [hc] at hca
      simp only [List.length_singleton, List.head?_cons, Option.map_some] at hca
      have h1 : parse_class_attr cls.attributes = Except.ok (some a.kv) := by
        rw [hca]
        norm_num
      have hsome := psa_some cls a.kv h1
      cases hfail : configTagFails a.kv with
      | true =>
        obtain ⟨e, he⟩ := (configSpec_error_iff a.kv).mpr hfail
        rw [he] at hsome
        constructor
        · intro _
          exact Or.inr ⟨a, rfl, hfail⟩
        · intro _
          exact ⟨e, hsome⟩
      | false =>
        have hnoerr : ∀ e, configSpec a.kv ≠ Except.error e := by
          intro e he
          have := (configSpec_error_iff a.kv).mp ⟨e, he⟩
          rw [hfail] at this
          exact Bool.noConfusion this
        cases hcs : configSpec a.kv with
        | error e => exact absurd hcs (hnoerr e)
        | ok v =>
          rcases v with ⟨base, hgi⟩
          rw [hcs, hp] at hsome
          constructor
          · rintro ⟨e, he⟩
            rw [hsome] at he
            exact Except.noConfusion he
          · rintro (h2 | ⟨a', ha', hfail'⟩)
            · simp at h2
            · have haa : a = a' := by simpa using ha'
              rw [← haa] at hfail'
              rw [hfail] at hfail'
              exact Bool.noConfusion hfail'
    | cons b rest2 =>
      have h2 : 2 ≤ (classAttrs cls.attributes).length := by
        rw [hc]
        simp only [List.length_cons]
        omega
      constructor
      · intro _
        refine Or.inl ?_
        simp only [List.length_cons]
        omega
      · intro _
        exact ⟨onlyOneClassMsg, hdup h2⟩

/-- Witness for C9 at a declaration with two configuration tags. -/
theorem claim_C9_witness :
    (∃ e, parse_struct_attributes exDupClassStruct = Except.error e) ∧
    parse_struct_attributes exDupClassStruct = Except.error onlyOneClassMsg := by
  constructor
  · exact (claim_C9 exDupClassStruct [] rfl).1.mpr (Or.inl (by decide))
  · exact (claim_C9 exDupClassStruct [] rfl).2 (by decide)

/-- C10: the emitted plugin record carries a Some constructor reference
exactly when the initializer flag is set, always carries the destructor
reference, and with no configuration tag the base type defaults to
RefCounted. -/
theorem claim_C10 (cls : Struct) (cfg : ClassAttributes) (ts : TokenStreamOut)
    (hcfg : parse_struct_attributes cls = Except.ok cfg)
    (ht : transform (MacroInput.parsed (Declaration.struct cls)) = some (Except.ok ts)) :
    (ts.plugin.generated_create_fn =
      if cfg.has_generated_init then some (create_fn_ref cls.name) else Option.none) ∧
    ts.plugin.free_fn = free_fn_ref cls.name ∧
    (classAttrs cls.attributes = [] →
      ts.plugin.base_class_name = "RefCounted" ∧ ts.base_ty = "RefCounted") := by
  obtain ⟨cfg', flds, hcfg', hf', hpim, hts⟩ := transform_struct_ok_inv cls ts ht
  rw [hcfg] at hcfg'
  have hcc : cfg = cfg' := by
    exact (Except.ok.injEq _ _ ▸ hcfg' : cfg = cfg')
  subst hcc
  rw [hts]
  refine ⟨rfl, rfl, ?_⟩
  intro hclass
  have h0 : parse_class_attr cls.attributes = Except.ok Option.none := by
    rw [parse_class_attr_eq, hclass]
    norm_num
  have hok := psa_none cls h0
  rw [hcfg] at hok
  cases hpp : parse_property_attrs cls.attributes with
  | error e =>
    rw [hpp] at hok
    exact Except.noConfusion hok
  | ok ps =>
    rw [hpp] at hok
    have : cfg = { base_ty := "RefCounted", has_generated_init := false, properties := ps } := by
      exact Except.ok.injEq _ _ ▸ hok
    rw [this]
    exact ⟨rfl, rfl⟩

/-- Witness for C10 at a bare unit struct. -/
theorem claim_C10_witness : ∃ ts,
    transform (MacroInput.parsed (Declaration.struct exUnitStruct)) = some (Except.ok ts) ∧
    ts.plugin.generated_create_fn = Option.none ∧
    ts.plugin.free_fn = free_fn_ref "Empty" ∧
    ts.plugin.base_class_name = "RefCounted" := by
  refine ⟨_, rfl, ?_, ?_, ?_⟩
  · exact (claim_C10 exUnitStruct _ _ rfl rfl).1
  · exact (claim_C10 exUnitStruct _ _ rfl rfl).2.1
  · exact ((claim_C10 exUnitStruct _ _ rfl rfl).2.2 rfl).1

end GodotMacros
